import Mathlib

/-!
Shallow embedding of `src/EventManager/EventManager.py` (classes `Event` and
`EventManager`).

Python values that can appear as handlers, arguments, or dict entries are
modelled by `Val`.  A callable is `Val.vfun id`; its runtime behaviour is an
environment `Env : Nat → List Val → HOutcome` mapping the callable id and the
positional arguments to the outcome of the call (normal return, raising
`StopIteration`, or raising any other exception).  Keyword arguments play no
role in any claim and are not modelled separately; `*args` is a `List Val`.

`Event` subclasses `list` in the source: the list contents are the `handlers`
field here; the attributes `name` and `eventmanager` are the `name` and
`hasOwner` fields (the back reference itself is passed explicitly to `fire`).
`EventManager` subclasses `dict`: the dict contents are the `entries`
association list.

`Event.fire` is modelled with explicit fuel because a stored `got_event`
entry could in principle point back into the manager; the fuel bounds the
nesting depth of global-event dispatch, and `.timeout` marks exhaustion.
The trace of a fire is the list of `(handler id, argument list)` invocation
records, in execution order.
-/

namespace EM

/-- Outcome of invoking one Python callable. -/
inductive HOutcome where
  | ok
  | stopIteration
  | exc
deriving Repr, DecidableEq

/-- Python values: `None`, strings, numbers, and callables (by id). -/
inductive Val where
  | vnone
  | vstr (s : String)
  | vnat (n : Nat)
  | vfun (id : Nat)
deriving Repr, DecidableEq

/-- Behaviour of the callables: id and positional args to call outcome. -/
abbrev Env : Type := Nat → List Val → HOutcome

/-- Python `callable(v)`. -/
def callable : Val → Bool
  | .vfun _ => true
  | _ => false

/-- Exceptions raised by the library machinery itself. -/
inductive PyError where
  | typeError
  | valueError
  | keyError (k : String)
  | attributeError
deriving Repr, DecidableEq

/-- `class Event(list)`: the list contents plus the `name` and
`eventmanager` attributes set in `__init__`. -/
structure Event where
  handlers : List Val
  name : Val
  hasOwner : Bool
deriving Repr, DecidableEq

/-- `Event.__init__(self, *args)`: `list.__init__(args)`, `name = None`,
`eventmanager = None`.  No callability check on the initial contents. -/
def Event.init (args : List Val) : Event :=
  { handlers := args, name := .vnone, hasOwner := false }

/-- `Event.clear`: `del self[:]`. -/
def Event.clear (e : Event) : Event :=
  { e with handlers := [] }

/-- `Event.add_handler`: raises `TypeError` when the argument is not
callable, otherwise appends it.  An error result models an exception
raised before any mutation: the caller's list is unchanged. -/
def Event.add_handler (e : Event) (h : Val) : Except PyError Event :=
  if callable h then .ok { e with handlers := e.handlers ++ [h] }
  else .error .typeError

/-- `list.remove`: drop the first occurrence, `none` when absent. -/
def listRemoveFirst (v : Val) : List Val → Option (List Val)
  | [] => none
  | x :: xs =>
    if x = v then some xs
    else (listRemoveFirst v xs).map (fun l => x :: l)

/-- `Event.remove_handler`: `self.remove(handler)`; `list.remove` raises
`ValueError` (the "not found" error) when the value is absent. -/
def Event.remove_handler (e : Event) (h : Val) : Except PyError Event :=
  match listRemoveFirst h e.handlers with
  | some l => .ok { e with handlers := l }
  | none => .error .valueError

/-- A dict entry of an `EventManager`: an `Event` or any other value
(`__setitem__` stores non-Event values as-is). -/
inductive EMVal where
  | ev (e : Event)
  | raw (v : Val)
deriving Repr, DecidableEq

/-- `class EventManager(dict)`: the dict contents.  The source defines no
instance attributes — `__setattr__` turns every attribute write into a
dict write — so the dict is the whole state. -/
structure EventManager where
  entries : List (String × EMVal)
deriving Repr, DecidableEq

/-- `dict.__getitem__` as a total lookup (`none` models `KeyError`);
`EventManager` overrides neither `__getitem__` nor `__missing__`. -/
def lookupEntry (m : EventManager) (k : String) : Option EMVal :=
  match m.entries.find? (fun p => p.1 = k) with
  | some p => some p.2
  | none => none

/-- `dict.__setitem__` on the underlying association list: replace the value
under an existing key, otherwise add the key. -/
def dictSet : List (String × EMVal) → String → EMVal → List (String × EMVal)
  | [], k, v => [(k, v)]
  | (k1, v1) :: rest, k, v =>
    if k1 = k then (k, v) :: rest else (k1, v1) :: dictSet rest k v

/-- `EventManager.__setitem__`: when the value is an `Event`, stamp its
`name` to the key and its `eventmanager` to this manager before storing;
store any value regardless of type. -/
def EventManager.setitem (m : EventManager) (k : String) (v : EMVal) : EventManager :=
  match v with
  | .ev e => ⟨dictSet m.entries k (.ev { e with name := .vstr k, hasOwner := true })⟩
  | .raw x => ⟨dictSet m.entries k (.raw x)⟩

/-- `EventManager.__getattr__` (and `__getitem__`): `return self[name]`;
a missing key raises `KeyError` — nothing is created on read. -/
def EventManager.getattr (m : EventManager) (k : String) : Except PyError EMVal :=
  match lookupEntry m k with
  | some v => .ok v
  | none => .error (.keyError k)

/-- In-place mutation of the `Event` object aliased by a dict entry
(attribute assignment on `self[k]` does not re-run `__setitem__`). -/
def updateEventEntry (m : EventManager) (k : String) (f : Event → Event) : EventManager :=
  match lookupEntry m k with
  | some (.ev e) => ⟨dictSet m.entries k (.ev (f e))⟩
  | _ => m

/-- `EventManager.__init__` step by step: `self.got_event = Event()` goes
through `__setattr__`, hence through `__setitem__`, storing the event in the
dict (stamped with name `"got_event"` and this manager as owner); then
`self.got_event.name = "GLOBAL"` and `self.got_event.eventmanager = None`
mutate that stored event in place. -/
def EventManager.init : EventManager :=
  let m1 := EventManager.setitem ⟨[]⟩ "got_event" (.ev (Event.init []))
  let m2 := updateEventEntry m1 "got_event" (fun e => { e with name := .vstr "GLOBAL" })
  updateEventEntry m2 "got_event" (fun e => { e with hasOwner := false })

/-- The invocation records of one `fire`: `(handler id, positional args)`
in execution order. -/
abbrev Trace : Type := List (Nat × List Val)

/-- How a `fire` call returns to its caller. -/
inductive FireResult where
  | ok
  | exc
  | typeError
  | keyError (k : String)
  | timeout
deriving Repr, DecidableEq

/-- The dispatch loop of `Event.fire`: `for handler in self: try:
handler(*args) except StopIteration: break`.  `StopIteration` stops the
loop and is swallowed; any other exception propagates; calling a
non-callable element raises `TypeError` (which also propagates) without
the handler ever running. -/
def runHandlers (env : Env) (args : List Val) : List Val → Trace × FireResult
  | [] => ([], .ok)
  | h :: rest =>
    match h with
    | .vfun id =>
      match env id args with
      | .ok =>
        let tr := runHandlers env args rest
        ((id, args) :: tr.1, tr.2)
      | .stopIteration => ([(id, args)], .ok)
      | .exc => ([(id, args)], .exc)
    | _ => ([], .typeError)

/-- `Event.fire(self, *args)`: if `self.eventmanager` is set, first call
`self.eventmanager.got_event(self.name, *args)` — an attribute read of
`"got_event"` on the manager's dict followed by a call — then run the
dispatch loop over the handlers.  The manager the event's `eventmanager`
attribute points to is passed explicitly; `fuel` bounds the nesting of
global-event dispatch (`.timeout` on exhaustion).  An exception from the
`got_event` call (including a `StopIteration` raised there, which the
loop's `try` does not cover) propagates and the event's own handlers
never run. -/
def Event.fire (env : Env) : Nat → EventManager → Event → List Val → Trace × FireResult
  | 0, _, _, _ => ([], .timeout)
  | fuel + 1, m, e, args =>
    if e.hasOwner then
      match lookupEntry m "got_event" with
      | some (.ev g) =>
        match Event.fire env fuel m g (e.name :: args) with
        | (t1, .ok) =>
          let tr := runHandlers env args e.handlers
          (t1 ++ tr.1, tr.2)
        | (t1, r) => (t1, r)
      | some (.raw v) =>
        match v with
        | .vfun id =>
          match env id (e.name :: args) with
          | .ok =>
            let tr := runHandlers env args e.handlers
            ((id, e.name :: args) :: tr.1, tr.2)
          | _ => ([(id, e.name :: args)], .exc)
        | _ => ([], .typeError)
      | none => ([], .keyError "got_event")
    else
      runHandlers env args e.handlers

/-- Attributes found on the `EventManager` instance by normal lookup before
`__getattr__` runs: the public attributes of the `dict` class (Python 2,
which this source targets) plus the `apply` method defined on the class.
The instance itself has no `__dict__` entries because `__setattr__`
redirects every attribute write into the dict contents. -/
def classAttrs : List String :=
  ["apply", "clear", "copy", "fromkeys", "get", "has_key", "items",
   "iteritems", "iterkeys", "itervalues", "keys", "pop", "popitem",
   "setdefault", "update", "values", "viewitems", "viewkeys", "viewvalues"]

/-- Python's `method.startswith("_")`: does the first character equal
`'_'`? -/
def startswithUnderscore (s : String) : Bool :=
  match s.data with
  | [] => false
  | ch :: _ => ch = '_'

/-- `hasattr(self, name)` on an `EventManager`: true when normal lookup
finds a class attribute, or when `__getattr__` (a dict lookup) succeeds.
Python 2's `hasattr` reports `False` on the `KeyError` a missing key
raises. -/
def EventManager.hasattr (m : EventManager) (k : String) : Bool :=
  if k ∈ classAttrs then true else (lookupEntry m k).isSome

/-- The body of `EventManager.apply`'s loop over `dir(events)`, the source
object modelled as the list of its `(member name, member value)` pairs:
skip non-callable members, skip names starting with `"_"`, create an empty
`Event` under the name when `hasattr` fails, then `self[method].add_handler`
— a plain dict read followed by an in-place append on the aliased event.
`self[method]` raises `KeyError` when `hasattr` was satisfied by a class
attribute that is not a dict key, and a stored non-Event value has no
`add_handler` (`AttributeError`); either exception aborts the loop. -/
def EventManager.applyGo : EventManager → List (String × Val) → Except PyError EventManager
  | m, [] => .ok m
  | m, (method, v) :: rest =>
    if !callable v then EventManager.applyGo m rest
    else if startswithUnderscore method then EventManager.applyGo m rest
    else
      let m1 := if EventManager.hasattr m method then m
                else EventManager.setitem m method (.ev (Event.init []))
      match lookupEntry m1 method with
      | some (.ev e) =>
        match Event.add_handler e v with
        | .ok e1 => EventManager.applyGo ⟨dictSet m1.entries method (.ev e1)⟩ rest
        | .error er => .error er
      | some (.raw _) => .error .attributeError
      | none => .error (.keyError method)

/-- `EventManager.apply(events)`. -/
def EventManager.apply (m : EventManager) (members : List (String × Val)) :
    Except PyError EventManager :=
  EventManager.applyGo m members

/-- A concrete environment: every callable returns normally. -/
def envAllOk : Env := fun _ _ => .ok

/-- A concrete environment: callable `s` raises `StopIteration`, every
other callable returns normally. -/
def envStopAt (s : Nat) : Env := fun i _ => if i = s then .stopIteration else .ok

/-- A concrete manager: a fresh `EventManager` after
`m.got_event.add_handler(f9)` — the attribute read aliases the stored
global event and the append mutates it in place. -/
def mGlobalLogger : EventManager :=
  updateEventEntry EventManager.init "got_event"
    (fun g => { g with handlers := g.handlers ++ [.vfun 9] })

/-! ### Helper lemmas about the dict model -/

theorem lookupEntry_nil (k : String) : lookupEntry ⟨[]⟩ k = none := rfl

theorem lookupEntry_cons_self (k : String) (v : EMVal) (rest : List (String × EMVal)) :
    lookupEntry ⟨(k, v) :: rest⟩ k = some v := by
  simp [lookupEntry, List.find?]

theorem lookupEntry_cons_ne (k1 : String) (v1 : EMVal) (rest : List (String × EMVal))
    (k : String) (h : k1 ≠ k) :
    lookupEntry ⟨(k1, v1) :: rest⟩ k = lookupEntry ⟨rest⟩ k := by
  simp [lookupEntry, List.find?, h]

theorem lookupEntry_dictSet_self (l : List (String × EMVal)) (k : String) (v : EMVal) :
    lookupEntry ⟨dictSet l k v⟩ k = some v := by
  induction l with
  | nil => simp [dictSet, lookupEntry, List.find?]
  | cons p rest ih =>
    obtain ⟨k1, v1⟩ := p
    by_cases h : k1 = k
    · subst h
      simp [dictSet, lookupEntry_cons_self]
    · rw [show dictSet ((k1, v1) :: rest) k v = (k1, v1) :: dictSet rest k v by
        simp [dictSet, h]]
      rw [lookupEntry_cons_ne k1 v1 _ k h]
      exact ih

theorem lookupEntry_dictSet_ne (l : List (String × EMVal)) (k k1 : String) (v : EMVal)
    (h : k1 ≠ k) :
    lookupEntry ⟨dictSet l k v⟩ k1 = lookupEntry ⟨l⟩ k1 := by
  induction l with
  | nil =>
    simp [dictSet, lookupEntry, List.find?, Ne.symm h]
  | cons p rest ih =>
    obtain ⟨k2, v2⟩ := p
    by_cases h2 : k2 = k
    · subst h2
      rw [show dictSet ((k2, v2) :: rest) k2 v = (k2, v) :: rest by simp [dictSet]]
      rw [lookupEntry_cons_ne k2 v rest k1 (Ne.symm h), lookupEntry_cons_ne k2 v2 rest k1 (Ne.symm h)]
    · rw [show dictSet ((k2, v2) :: rest) k v = (k2, v2) :: dictSet rest k v by
        simp [dictSet, h2]]
      by_cases h3 : k2 = k1
      · subst h3
        rw [lookupEntry_cons_self, lookupEntry_cons_self]
      · rw [lookupEntry_cons_ne k2 v2 _ k1 h3, lookupEntry_cons_ne k2 v2 rest k1 h3]
        exact ih

theorem dictSet_dictSet (l : List (String × EMVal)) (k : String) (v v1 : EMVal) :
    dictSet (dictSet l k v) k v1 = dictSet l k v1 := by
  induction l with
  | nil => simp [dictSet]
  | cons p rest ih =>
    obtain ⟨k2, v2⟩ := p
    by_cases h : k2 = k
    · subst h
      simp [dictSet]
    · simp [dictSet, h, ih]

/-! ### Helper lemmas about the dispatch loop -/

theorem runHandlers_all_ok (env : Env) (args : List Val) (ids : List Nat)
    (h : ∀ id ∈ ids, env id args = .ok) :
    runHandlers env args (ids.map .vfun) = (ids.map (fun i => (i, args)), .ok) := by
  induction ids with
  | nil => simp [runHandlers]
  | cons i rest ih =>
    have hi : env i args = .ok := h i (by simp)
    have hrest : ∀ id ∈ rest, env id args = .ok := fun id hm => h id (by simp [hm])
    simp [runHandlers, hi, ih hrest]

theorem runHandlers_stop (env : Env) (args : List Val) (pre : List Nat) (i : Nat)
    (post : List Val)
    (hpre : ∀ id ∈ pre, env id args = .ok)
    (hstop : env i args = .stopIteration) :
    runHandlers env args (pre.map .vfun ++ .vfun i :: post)
      = (pre.map (fun j => (j, args)) ++ [(i, args)], .ok) := by
  induction pre with
  | nil => simp [runHandlers, hstop]
  | cons j rest ih =>
    have hj : env j args = .ok := hpre j (by simp)
    have hrest : ∀ id ∈ rest, env id args = .ok := fun id hm => hpre id (by simp [hm])
    simp [runHandlers, hj, ih hrest]

theorem runHandlers_ne_timeout (env : Env) (args : List Val) (l : List Val) :
    (runHandlers env args l).2 ≠ .timeout := by
  induction l with
  | nil => simp [runHandlers]
  | cons h rest ih =>
    cases h with
    | vfun id =>
      cases he : env id args <;> simp [runHandlers, he, ih]
    | vnone => simp [runHandlers]
    | vstr s => simp [runHandlers]
    | vnat n => simp [runHandlers]

/-! ### Helper lemmas about list.remove -/

theorem listRemoveFirst_not_mem (v : Val) (l : List Val) (h : v ∉ l) :
    listRemoveFirst v l = none := by
  induction l with
  | nil => rfl
  | cons x xs ih =>
    have hx : x ≠ v := fun he => h (by simp [he])
    have hxs : v ∉ xs := fun hm => h (by simp [hm])
    simp [listRemoveFirst, hx, ih hxs]

theorem listRemoveFirst_first_occ (v : Val) (pre post : List Val) (h : v ∉ pre) :
    listRemoveFirst v (pre ++ v :: post) = some (pre ++ post) := by
  induction pre with
  | nil => simp [listRemoveFirst]
  | cons x xs ih =>
    have hx : x ≠ v := fun he => h (by simp [he])
    have hxs : v ∉ xs := fun hm => h (by simp [hm])
    simp [listRemoveFirst, hx, ih hxs]

/-! ### Helper lemmas about the apply loop -/

theorem applyGo_skip_non_callable (m : EventManager) (nm : String) (v : Val)
    (rest : List (String × Val)) (h : callable v = false) :
    EventManager.applyGo m ((nm, v) :: rest) = EventManager.applyGo m rest := by
  simp [EventManager.applyGo, h]

theorem applyGo_step_new (m : EventManager) (a : String) (i : Nat)
    (rest : List (String × Val))
    (h1 : a ∉ classAttrs) (h2 : startswithUnderscore a = false)
    (h3 : lookupEntry m a = none) :
    EventManager.applyGo m ((a, .vfun i) :: rest)
      = EventManager.applyGo
          ⟨dictSet m.entries a
            (.ev { handlers := [.vfun i], name := .vstr a, hasOwner := true })⟩ rest := by
  simp [EventManager.applyGo, h2, EventManager.hasattr, h1, h3,
        EventManager.setitem, Event.init, lookupEntry_dictSet_self,
        Event.add_handler, callable, dictSet_dictSet]

theorem applyGo_step_existing (m : EventManager) (a : String) (i : Nat) (e : Event)
    (rest : List (String × Val))
    (h1 : a ∉ classAttrs) (h2 : startswithUnderscore a = false)
    (h3 : lookupEntry m a = some (.ev e)) :
    EventManager.applyGo m ((a, .vfun i) :: rest)
      = EventManager.applyGo
          ⟨dictSet m.entries a (.ev { e with handlers := e.handlers ++ [.vfun i] })⟩ rest := by
  simp [EventManager.applyGo, h2, EventManager.hasattr, h1, h3,
        Event.add_handler, callable]

/-! ### Claims -/

/-- C1: for an `Event` whose handlers are `[h1, h2, h3]` in registration
order, with no owner and no handler raising, `fire(a, b)` invokes
`h1(a,b)`, `h2(a,b)`, `h3(a,b)`, each exactly once, in that exact order:
the invocation trace is precisely `[(h1, args), (h2, args), (h3, args)]`
and the call returns normally. -/
theorem fire_three_handlers_in_order (env : Env) (m : EventManager) (e : Event)
    (args : List Val) (i1 i2 i3 : Nat)
    (he : e.handlers = [.vfun i1, .vfun i2, .vfun i3])
    (ho : e.hasOwner = false)
    (h1 : env i1 args = .ok) (h2 : env i2 args = .ok) (h3 : env i3 args = .ok) :
    Event.fire env 1 m e args = ([(i1, args), (i2, args), (i3, args)], .ok) := by
  simp [Event.fire, ho, he, runHandlers, h1, h2, h3]

theorem fire_three_handlers_in_order_witness :
    Event.fire envAllOk 1 EventManager.init (Event.init [.vfun 1, .vfun 2, .vfun 3])
      [.vnat 7, .vnat 8]
      = ([(1, [.vnat 7, .vnat 8]), (2, [.vnat 7, .vnat 8]), (3, [.vnat 7, .vnat 8])], .ok) :=
  fire_three_handlers_in_order envAllOk EventManager.init _ _ 1 2 3 rfl rfl rfl rfl rfl

/-- C3: if handler `i` raises the stop signal (`StopIteration`) during
`fire`, every handler before it and `i` itself were invoked exactly once
(the trace lists exactly them, in order), the handlers after `i` are never
invoked, and the dispatch loop swallows the signal: the fire call returns
normally rather than propagating it. -/
theorem fire_stop_signal (env : Env) (m : EventManager) (e : Event) (args : List Val)
    (pre : List Nat) (i : Nat) (post : List Val)
    (he : e.handlers = pre.map .vfun ++ .vfun i :: post)
    (ho : e.hasOwner = false)
    (hpre : ∀ id ∈ pre, env id args = .ok)
    (hstop : env i args = .stopIteration) :
    Event.fire env 1 m e args = (pre.map (fun j => (j, args)) ++ [(i, args)], .ok) := by
  simp [Event.fire, ho, he, runHandlers_stop env args pre i post hpre hstop]

theorem fire_stop_signal_witness :
    Event.fire (envStopAt 2) 1 EventManager.init (Event.init [.vfun 1, .vfun 2, .vfun 3])
      [.vnat 5]
      = ([(1, [.vnat 5]), (2, [.vnat 5])], .ok) :=
  fire_stop_signal (envStopAt 2) EventManager.init _ _ [1] 2 [.vfun 3] rfl rfl
    (by decide) (by decide)

/-- C6: `add_handler` on any non-callable value raises `TypeError` (the
check precedes the append, so the error result models an exception raised
with the handler list untouched — the caller's `Event` is returned
unchanged by the `Except` discipline). -/
theorem add_handler_rejects_non_callable (e : Event) (v : Val)
    (h : callable v = false) :
    Event.add_handler e v = .error .typeError := by
  simp [Event.add_handler, h]

theorem add_handler_rejects_non_callable_witness :
    callable (.vnat 3) = false ∧
    Event.add_handler (Event.init [.vfun 1]) (.vnat 3) = .error .typeError :=
  ⟨rfl, add_handler_rejects_non_callable (Event.init [.vfun 1]) (.vnat 3) rfl⟩

/-- C7: `remove_handler x` on an `Event` not containing `x` raises the
"not found" error (`list.remove`'s `ValueError`) — the error precedes any
mutation, so the handler list is unchanged; when `x` is present,
`remove_handler x` removes exactly the first occurrence and leaves the
rest of the list (and the `name`/owner attributes) intact. -/
theorem remove_handler_first_or_error (e : Event) (x : Val) :
    (x ∉ e.handlers → Event.remove_handler e x = .error .valueError) ∧
    (∀ pre post, x ∉ pre → e.handlers = pre ++ x :: post →
      Event.remove_handler e x = .ok { e with handlers := pre ++ post }) := by
  constructor
  · intro h
    simp [Event.remove_handler, listRemoveFirst_not_mem x e.handlers h]
  · intro pre post hpre hsplit
    simp [Event.remove_handler, hsplit, listRemoveFirst_first_occ x pre post hpre]

theorem remove_handler_first_or_error_witness :
    Event.remove_handler (Event.init [.vnat 7]) (.vnat 5) = .error .valueError ∧
    Event.remove_handler (Event.init [.vnat 0, .vnat 1, .vnat 1]) (.vnat 1)
      = .ok { Event.init [.vnat 0, .vnat 1, .vnat 1] with handlers := [.vnat 0, .vnat 1] } :=
  ⟨(remove_handler_first_or_error (Event.init [.vnat 7]) (.vnat 5)).1 (by decide),
   (remove_handler_first_or_error (Event.init [.vnat 0, .vnat 1, .vnat 1]) (.vnat 1)).2
     [.vnat 0] [.vnat 1] (by decide) rfl⟩

/-- C10: `Event.__init__(*args)` hands its arguments straight to the list
with no callability check, so `Event(v)` succeeds with `v` in the handler
list for every value `v`, including non-callable ones — in contrast with
`add_handler`, which rejects the same value with `TypeError`. -/
theorem event_init_skips_callable_check (v : Val) (h : callable v = false) :
    (Event.init [v]).handlers = [v] ∧
    Event.add_handler (Event.init []) v = .error .typeError := by
  exact ⟨rfl, by simp [Event.add_handler, h]⟩

theorem event_init_skips_callable_check_witness :
    callable (.vnat 0) = false ∧
    (Event.init [.vnat 0]).handlers = [.vnat 0] ∧
    Event.add_handler (Event.init []) (.vnat 0) = .error .typeError :=
  ⟨rfl, event_init_skips_callable_check (.vnat 0) rfl⟩

/-- C2: storing an `Event` in a manager under key `k` stamps its name to
`k` and its owner to the manager; firing that stored event with `args`
first fires the manager's global event (`got_event`) with the name
prepended as first positional argument — every global handler is invoked
with `k :: args` — and only after all of them does any of the event's own
handlers run: the trace is the global handlers' invocations followed by
the event's own dispatch-loop trace on plain `args`. -/
theorem fire_member_fires_global_first (env : Env) (mPre : EventManager) (k : String)
    (e0 g : Event) (args : List Val) (gids : List Nat)
    (hk : k ≠ "got_event")
    (hg : lookupEntry mPre "got_event" = some (.ev g))
    (hgo : g.hasOwner = false)
    (hgh : g.handlers = gids.map .vfun)
    (hok : ∀ id ∈ gids, env id (.vstr k :: args) = .ok) :
    lookupEntry (EventManager.setitem mPre k (.ev e0)) k
      = some (.ev { e0 with name := .vstr k, hasOwner := true }) ∧
    Event.fire env 2 (EventManager.setitem mPre k (.ev e0))
        { e0 with name := Val.vstr k, hasOwner := true } args
      = (gids.map (fun i => (i, Val.vstr k :: args))
           ++ (runHandlers env args e0.handlers).1,
         (runHandlers env args e0.handlers).2) := by
  have hm : lookupEntry (EventManager.setitem mPre k (.ev e0)) "got_event"
      = some (.ev g) := by
    rw [show EventManager.setitem mPre k (.ev e0)
        = ⟨dictSet mPre.entries k (.ev { e0 with name := .vstr k, hasOwner := true })⟩
       from rfl]
    rw [lookupEntry_dictSet_ne mPre.entries k "got_event" _ (Ne.symm hk)]
    exact hg
  refine ⟨?_, ?_⟩
  · rw [show EventManager.setitem mPre k (.ev e0)
        = ⟨dictSet mPre.entries k (.ev { e0 with name := .vstr k, hasOwner := true })⟩
       from rfl]
    exact lookupEntry_dictSet_self mPre.entries k _
  · simp [Event.fire, hm, hgo, hgh,
          runHandlers_all_ok env (.vstr k :: args) gids hok]

theorem fire_member_fires_global_first_witness :
    lookupEntry (EventManager.setitem mGlobalLogger "foo" (.ev (Event.init [.vfun 1]))) "foo"
      = some (.ev { handlers := [.vfun 1], name := .vstr "foo", hasOwner := true }) ∧
    Event.fire envAllOk 2 (EventManager.setitem mGlobalLogger "foo" (.ev (Event.init [.vfun 1])))
        { handlers := [.vfun 1], name := .vstr "foo", hasOwner := true }
        [.vnat 1, .vnat 2]
      = ([(9, [.vstr "foo", .vnat 1, .vnat 2]), (1, [.vnat 1, .vnat 2])], .ok) :=
  fire_member_fires_global_first envAllOk mGlobalLogger "foo" (Event.init [.vfun 1])
    { handlers := [.vfun 9], name := .vstr "GLOBAL", hasOwner := false }
    [.vnat 1, .vnat 2] [9] (by decide) (by decide) rfl rfl (by decide)

/-- C4 counterexample: the claim says the global event is never stored as
a regular entry of the manager's mapping, in particular that immediately
after construction the mapping has no entry referring to it.  In the code
`self.got_event = Event()` goes through `__setattr__`, which is
`self["got_event"] = value`: immediately after construction the mapping
DOES contain the global event, as the regular entry under key
`"got_event"`. -/
theorem init_stores_global_event_in_mapping :
    lookupEntry EventManager.init "got_event"
      = some (.ev { handlers := [], name := .vstr "GLOBAL", hasOwner := false }) := by
  decide

/-- C4 amended: immediately after construction the manager's mapping
consists of exactly one regular entry, key `"got_event"`, holding the
global event (named `"GLOBAL"`, empty handler list, owner unset — the
unset owner is what prevents its firing from re-triggering itself). -/
theorem init_mapping_exactly_global :
    EventManager.init
      = ⟨[("got_event",
           .ev { handlers := [], name := .vstr "GLOBAL", hasOwner := false })]⟩ := by
  decide

/-- C5 counterexample: the claim says reading a never-created name
implicitly creates a new empty event rather than failing.  In the code
`__getattr__` is `return self[name]` and the class defines no
`__missing__`: reading the never-created name `"foo"` on a fresh manager
raises `KeyError` and creates nothing. -/
theorem getattr_missing_key_raises :
    EventManager.getattr EventManager.init "foo" = .error (.keyError "foo") := by
  rfl

/-- C5 amended: reading a name for which no entry has been created (by
attribute or key access) fails with `KeyError`; the read mutates nothing.
Events come into existence only through assignment or through `apply`,
never through a read. -/
theorem getattr_missing_key (m : EventManager) (k : String)
    (h : lookupEntry m k = none) :
    EventManager.getattr m k = .error (.keyError k) := by
  simp [EventManager.getattr, h]

theorem getattr_missing_key_witness :
    lookupEntry EventManager.init "bar" = none ∧
    EventManager.getattr EventManager.init "bar" = .error (.keyError "bar") :=
  ⟨by decide, getattr_missing_key EventManager.init "bar" (by decide)⟩

/-- C8: firing a manager's global event never re-triggers the global
event itself.  The global event is constructed with its owner unset
(`init`'s mapping holds it with `hasOwner = false`, third conjunct), and
firing any owner-less event with fuel `1` — a budget that forbids even a
single nested global dispatch — already completes: it is exactly the
plain handler loop (first conjunct) and never exhausts the fuel
regardless of how many handlers the event carries (second conjunct). -/
theorem global_event_never_retriggers (env : Env) (m : EventManager) (args : List Val)
    (g : Event) (h : g.hasOwner = false) :
    Event.fire env 1 m g args = runHandlers env args g.handlers ∧
    (Event.fire env 1 m g args).2 ≠ .timeout ∧
    lookupEntry EventManager.init "got_event"
      = some (.ev { handlers := [], name := .vstr "GLOBAL", hasOwner := false }) := by
  have h1 : Event.fire env 1 m g args = runHandlers env args g.handlers := by
    simp [Event.fire, h]
  refine ⟨h1, ?_, by decide⟩
  rw [h1]
  exact runHandlers_ne_timeout env args g.handlers

theorem global_event_never_retriggers_witness :
    Event.fire envAllOk 1 EventManager.init
        { handlers := [.vfun 4, .vfun 5], name := .vstr "GLOBAL", hasOwner := false }
        [.vstr "x"]
      = runHandlers envAllOk [.vstr "x"] [.vfun 4, .vfun 5] ∧
    (Event.fire envAllOk 1 EventManager.init
        { handlers := [.vfun 4, .vfun 5], name := .vstr "GLOBAL", hasOwner := false }
        [.vstr "x"]).2 ≠ .timeout ∧
    lookupEntry EventManager.init "got_event"
      = some (.ev { handlers := [], name := .vstr "GLOBAL", hasOwner := false }) :=
  global_event_never_retriggers envAllOk EventManager.init [.vstr "x"]
    { handlers := [.vfun 4, .vfun 5], name := .vstr "GLOBAL", hasOwner := false } rfl

/-- C9 counterexample: the claim quantifies over every object with public
invocable members, but a member whose name collides with an attribute of
the manager's class (here the `dict` method `"keys"`) makes `apply` fail:
`hasattr(self, "keys")` finds the class attribute, so no event is
created, and `self["keys"]` then raises `KeyError`.  After the call the
manager has no event named `"keys"` (it had none before, and the creation
branch was skipped). -/
theorem apply_fails_on_dict_attribute_name :
    EventManager.apply EventManager.init [("keys", .vfun 0)] = .error (.keyError "keys") ∧
    lookupEntry EventManager.init "keys" = none :=
  ⟨rfl, by decide⟩

/-- C9 amended: for every manager and every source object whose public
(non-underscore) invocable members bear names `a`, `b` that are fresh —
no existing entry and, forced by the counterexample, no collision with a
class attribute of the manager (`dict` methods and `apply`) — `apply`
creates events named `a` and `b` holding `obj.a` resp. `obj.b` as their
only handler (stamped with the name and the manager as owner); a
non-invocable member `c` is silently skipped and no event `c` appears;
applying the same object a second time appends each handler again, so
each appears exactly twice — handlers accumulate, with no deduplication
or replacement. -/
theorem apply_registers_and_accumulates (m0 : EventManager) (i j : Nat)
    (a b c : String) (w : Val)
    (hw : callable w = false)
    (hab : a ≠ b)
    (ha1 : a ∉ classAttrs) (hb1 : b ∉ classAttrs)
    (ha2 : startswithUnderscore a = false) (hb2 : startswithUnderscore b = false)
    (ha4 : lookupEntry m0 a = none) (hb4 : lookupEntry m0 b = none)
    (hc1 : c ≠ a) (hc2 : c ≠ b) (hc4 : lookupEntry m0 c = none) :
    ∃ m1 m2 : EventManager,
      EventManager.apply m0 [(a, .vfun i), (b, .vfun j), (c, w)] = .ok m1 ∧
      lookupEntry m1 a
        = some (.ev { handlers := [.vfun i], name := .vstr a, hasOwner := true }) ∧
      lookupEntry m1 b
        = some (.ev { handlers := [.vfun j], name := .vstr b, hasOwner := true }) ∧
      lookupEntry m1 c = none ∧
      EventManager.apply m1 [(a, .vfun i), (b, .vfun j), (c, w)] = .ok m2 ∧
      lookupEntry m2 a
        = some (.ev { handlers := [.vfun i, .vfun i], name := .vstr a, hasOwner := true }) ∧
      lookupEntry m2 b
        = some (.ev { handlers := [.vfun j, .vfun j], name := .vstr b, hasOwner := true }) := by
  refine ⟨⟨dictSet (dictSet m0.entries a
              (.ev { handlers := [.vfun i], name := .vstr a, hasOwner := true })) b
              (.ev { handlers := [.vfun j], name := .vstr b, hasOwner := true })⟩,
          ⟨dictSet (dictSet (dictSet (dictSet m0.entries a
              (.ev { handlers := [.vfun i], name := .vstr a, hasOwner := true })) b
              (.ev { handlers := [.vfun j], name := .vstr b, hasOwner := true })) a
              (.ev { handlers := [.vfun i, .vfun i], name := .vstr a, hasOwner := true })) b
              (.ev { handlers := [.vfun j, .vfun j], name := .vstr b, hasOwner := true })⟩,
          ?_, ?_, ?_, ?_, ?_, ?_, ?_⟩
  · show EventManager.applyGo m0 _ = _
    rw [applyGo_step_new m0 a i _ ha1 ha2 ha4]
    have hb5 : lookupEntry
        ⟨dictSet m0.entries a
          (.ev { handlers := [.vfun i], name := .vstr a, hasOwner := true })⟩ b = none := by
      rw [lookupEntry_dictSet_ne _ _ _ _ (Ne.symm hab)]
      exact hb4
    rw [applyGo_step_new _ b j _ hb1 hb2 hb5]
    rw [applyGo_skip_non_callable _ _ _ _ hw]
    rfl
  · rw [lookupEntry_dictSet_ne _ _ _ _ hab]
    exact lookupEntry_dictSet_self m0.entries a _
  · exact lookupEntry_dictSet_self _ b _
  · rw [lookupEntry_dictSet_ne _ _ _ _ hc2, lookupEntry_dictSet_ne _ _ _ _ hc1]
    exact hc4
  · show EventManager.applyGo _ _ = _
    have h2a : lookupEntry
        ⟨dictSet (dictSet m0.entries a
          (.ev { handlers := [.vfun i], name := .vstr a, hasOwner := true })) b
          (.ev { handlers := [.vfun j], name := .vstr b, hasOwner := true })⟩ a
        = some (.ev { handlers := [.vfun i], name := .vstr a, hasOwner := true }) := by
      rw [lookupEntry_dictSet_ne _ _ _ _ hab]
      exact lookupEntry_dictSet_self m0.entries a _
    rw [applyGo_step_existing _ a i _ _ ha1 ha2 h2a]
    have h2b : lookupEntry
        ⟨dictSet (dictSet (dictSet m0.entries a
          (.ev { handlers := [.vfun i], name := .vstr a, hasOwner := true })) b
          (.ev { handlers := [.vfun j], name := .vstr b, hasOwner := true })) a
          (.ev { handlers := [.vfun i] ++ [.vfun i], name := .vstr a, hasOwner := true })⟩ b
        = some (.ev { handlers := [.vfun j], name := .vstr b, hasOwner := true }) := by
      rw [lookupEntry_dictSet_ne _ _ _ _ (Ne.symm hab)]
      exact lookupEntry_dictSet_self _ b _
    rw [applyGo_step_existing _ b j _ _ hb1 hb2 h2b]
    rw [applyGo_skip_non_callable _ _ _ _ hw]
    show Except.ok _ = _
    simp
  · rw [lookupEntry_dictSet_ne _ _ _ _ hab]
    exact lookupEntry_dictSet_self _ a _
  · exact lookupEntry_dictSet_self _ b _

theorem apply_registers_and_accumulates_witness :
    ∃ m1 m2 : EventManager,
      EventManager.apply EventManager.init
          [("ping", .vfun 1), ("pong", .vfun 2), ("pamf", .vnone)] = .ok m1 ∧
      lookupEntry m1 "ping"
        = some (.ev { handlers := [.vfun 1], name := .vstr "ping", hasOwner := true }) ∧
      lookupEntry m1 "pong"
        = some (.ev { handlers := [.vfun 2], name := .vstr "pong", hasOwner := true }) ∧
      lookupEntry m1 "pamf" = none ∧
      EventManager.apply m1 [("ping", .vfun 1), ("pong", .vfun 2), ("pamf", .vnone)] = .ok m2 ∧
      lookupEntry m2 "ping"
        = some (.ev { handlers := [.vfun 1, .vfun 1], name := .vstr "ping", hasOwner := true }) ∧
      lookupEntry m2 "pong"
        = some (.ev { handlers := [.vfun 2, .vfun 2], name := .vstr "pong", hasOwner := true }) :=
  apply_registers_and_accumulates EventManager.init 1 2 "ping" "pong" "pamf" .vnone
    rfl (by decide) (by decide) (by decide) rfl rfl (by decide) (by decide)
    (by decide) (by decide) (by decide)

end EM
